import Mathlib

/-!
Shallow embedding of the device-registry core of `src/streamlit_app.py`.

The registry (`st.session_state.building_data`) is a Python dict mapping a
device id to a device record.  We model it as an association list
`List (String × Record)` with Python-dict semantics: insertion of a present
key replaces the value in place, insertion of an absent key appends at the
end, and keys are unique in every state the program actually builds.

Numbers in the program are Python ints and floats; we model them as `ℚ`,
with Python's `round(x, 2)` modelled exactly as rounding to the nearest
multiple of 1/100, ties to even (`round2` below).  Randomness
(`random.randint`, `random.uniform`, `random.choice`) is modelled by
passing the per-room draws as explicit function parameters.
-/

set_option autoImplicit false

/-- Device record as stored in `building_data` in `src/streamlit_app.py`.
Generated records (lines 70-81) carry no `device_type`; records added via the
Device Management form (lines 319-331) carry `some deviceType`. -/
structure Record where
  room_id : String
  room_name : String
  floor : String
  ac_status : Bool
  power : ℚ
  voltage : ℚ
  current : ℚ
  energy_kwh : ℚ
  cost_taka : ℚ
  carbon_emissions : ℚ
  device_type : Option String
deriving DecidableEq

/-- The registry: a Python dict from device id to record, as an ordered
association list. -/
abbrev Registry := List (String × Record)

/-- Keys of the registry, in dict order. -/
def dictKeys (m : Registry) : List String := m.map Prod.fst

/-- Python `k in d` membership test. -/
def dictHasKey (m : Registry) (k : String) : Bool :=
  match m with
  | [] => false
  | (k', _) :: t => k' == k || dictHasKey t k

/-- Python `d.get(k)` / `d[k]` lookup. -/
def dictFind (m : Registry) (k : String) : Option Record :=
  match m with
  | [] => none
  | (k', v) :: t => if k' == k then some v else dictFind t k

/-- Python `d[k] = v`: replace in place if the key is present, else append. -/
def dictInsert (m : Registry) (k : String) (v : Record) : Registry :=
  match m with
  | [] => [(k, v)]
  | (k', v') :: t => if k' == k then (k, v) :: t else (k', v') :: dictInsert t k v

/-- Python `del d[k]`: drop the entry with key `k` (the first, which is the
only one when keys are unique). -/
def dictErase (m : Registry) (k : String) : Registry :=
  match m with
  | [] => []
  | (k', v') :: t => if k' == k then t else (k', v') :: dictErase t k

/-- Python `round(x, 2)`: nearest multiple of 1/100, ties to even. -/
def round2 (q : ℚ) : ℚ :=
  let s : ℚ := q * 100
  let f : ℤ := ⌊s⌋
  let n : ℤ :=
    if s - (f : ℚ) < 1/2 then f
    else if (1 : ℚ)/2 < s - (f : ℚ) then f + 1
    else if f % 2 = 0 then f else f + 1
  (n : ℚ) / 100

/-- Python `room.replace(" ", "")`: remove every space character. -/
def removeSpaces (s : String) : String := ⟨s.data.filter (fun c => c ≠ ' ')⟩

/-- The fixed building structure returned by `get_building_structure`
(lines 44-53). -/
def getBuildingStructure : List (String × List String) :=
  [("Ground", ["Room 101", "Room 102", "Room 103"]),
   ("1", ["Room 201", "Room 202", "Room 203", "Room 204"]),
   ("2", ["Room 301", "Room 302", "Room 303"]),
   ("3", ["Room 401", "Room 402", "Room 403", "Room 404"]),
   ("4", ["Room 501", "Room 502"]),
   ("5", ["Room 601", "Room 602", "Room 603"])]

/-- All room names of a building structure, across all floors. -/
def allRooms (bs : List (String × List String)) : List String :=
  bs.flatMap Prod.snd

/-- One generated record, as built in the loop body of
`generate_synthetic_data` (lines 62-81).  `power` is the draw of
`random.randint(800, 2000)`, `energy` the draw of `random.uniform(5, 25)`,
`status` the draw of `random.choice([True, False])`. -/
def mkGenRecord (floor room : String) (power : ℤ) (energy : ℚ) (status : Bool) :
    Record :=
  { room_id := removeSpaces room
    room_name := room
    floor := floor
    ac_status := status
    power := (power : ℚ)
    voltage := 220
    current := round2 ((power : ℚ) / 220)
    energy_kwh := round2 energy
    cost_taka := round2 (energy * 8.5)
    carbon_emissions := round2 (energy * 500)
    device_type := none }

/-- The inner room loop of `generate_synthetic_data`, inserting one record
per room into the dict accumulator. -/
def genRooms (floor : String) (rooms : List String) (p : String → ℤ)
    (e : String → ℚ) (s : String → Bool) (acc : Registry) : Registry :=
  rooms.foldl
    (fun a room => dictInsert a (removeSpaces room)
      (mkGenRecord floor room (p room) (e room) (s room))) acc

/-- The body of `generate_synthetic_data` (lines 55-83) over a supplied
building structure: both loops, starting from the empty dict. -/
def genData (bs : List (String × List String)) (p : String → ℤ)
    (e : String → ℚ) (s : String → Bool) : Registry :=
  bs.foldl (fun a fr => genRooms fr.1 fr.2 p e s a) []

/-- `generate_synthetic_data` itself, which fixes the building structure to
`get_building_structure`. -/
def generateSyntheticData (p : String → ℤ) (e : String → ℚ)
    (s : String → Bool) : Registry :=
  genData getBuildingStructure p e s

/-- Pointwise effect of `building_data[device_id]['ac_status'] = status` on
one dict entry: the entry with the matching key gets its `ac_status` field
replaced, every other entry is untouched. -/
def statusEntry (id : String) (status : Bool) (kr : String × Record) :
    String × Record :=
  if kr.1 == id then (kr.1, { kr.2 with ac_status := status }) else kr

/-- `update_device_status(device_id, status)` (lines 85-90): if the id is
present, set that record's `ac_status` field and return `true`; otherwise
return `false` and leave the dict alone. -/
def updateDeviceStatus (m : Registry) (id : String) (status : Bool) :
    Registry × Bool :=
  if dictHasKey m id then (m.map (statusEntry id status), true)
  else (m, false)

/-- Inputs of the Add New Device form (lines 305-313). -/
structure AddForm where
  device_id : String
  room_name : String
  floor : String
  device_type : String
  initial_on : Bool
  power_rating : ℚ
deriving DecidableEq

/-- The record built by the add-device handler (lines 319-331). -/
def mkNewDevice (f : AddForm) : Record :=
  { room_id := f.device_id
    room_name := f.room_name
    floor := f.floor
    ac_status := f.initial_on
    power := f.power_rating
    voltage := 220
    current := f.power_rating / 220
    energy_kwh := 0
    cost_taka := 0
    carbon_emissions := 0
    device_type := some f.device_type }

/-- The add-device handler (lines 317-337): Python's `if device_id and
room_name` admits exactly the non-empty strings; on success the record is
stored with `building_data[device_id] = new_device` (a plain dict
assignment), on failure an error is shown and the dict is untouched.  The
returned Bool is `true` for the success branch. -/
def addDevice (m : Registry) (f : AddForm) : Registry × Bool :=
  if f.device_id ≠ "" ∧ f.room_name ≠ "" then
    (dictInsert m f.device_id (mkNewDevice f), true)
  else (m, false)

/-- The delete handler (lines 365-368): `if building_data.get(device_id):`
guards the `del`.  A present record is a non-empty dict, hence truthy, so
the guard is exactly key presence. -/
def deleteDevice (m : Registry) (id : String) : Registry :=
  if dictHasKey m id then dictErase m id else m

/-- The summary metrics computed by `show_building_overview`
(lines 116-128): sums of `energy_kwh`, `cost_taka` and `carbon_emissions`
over all records, the count of records with `ac_status` true, and the dict
size. -/
structure Aggregate where
  total_energy_kwh : ℚ
  total_cost : ℚ
  total_carbon_grams : ℚ
  active_count : Nat
  total_count : Nat
deriving DecidableEq

/-- Recompute the overview metrics from the current registry. -/
def aggregate (m : Registry) : Aggregate :=
  { total_energy_kwh := (m.map (fun kr => kr.2.energy_kwh)).sum
    total_cost := (m.map (fun kr => kr.2.cost_taka)).sum
    total_carbon_grams := (m.map (fun kr => kr.2.carbon_emissions)).sum
    active_count := (m.filter (fun kr => kr.2.ac_status)).length
    total_count := m.length }

/-- Key-matches-record invariant: every entry's key equals the stored
`room_id` field. -/
def KeyInv (m : Registry) : Prop := ∀ kr ∈ m, kr.2.room_id = kr.1

instance (m : Registry) : Decidable (KeyInv m) := by
  unfold KeyInv; infer_instance


/-- Key-only image of a dict insertion: unchanged when the key is present,
appended when absent. -/
def insertKey (ks : List String) (k : String) : List String :=
  if ks.contains k then ks else ks ++ [k]

/-- Key-only image of `genData`: the normalized room ids, inserted in loop
order. -/
def genKeys (bs : List (String × List String)) : List String :=
  bs.foldl
    (fun ks fr => fr.2.foldl (fun a room => insertKey a (removeSpaces room)) ks)
    []

/-- Concrete record for the spec scenario room Room101: 10 kWh today, AC on,
derived fields consistent (cost 85, carbon 5000, current 5 A at 1100 W). -/
def room101Rec : Record :=
  { room_id := "Room101"
    room_name := "Room 101"
    floor := "Ground"
    ac_status := true
    power := 1100
    voltage := 220
    current := 5
    energy_kwh := 10
    cost_taka := 85
    carbon_emissions := 5000
    device_type := none }

/-- Concrete record for the spec scenario room Room102: 5 kWh today, AC off,
derived fields consistent (cost 42.5, carbon 2500, current 4 A at 880 W). -/
def room102Rec : Record :=
  { room_id := "Room102"
    room_name := "Room 102"
    floor := "Ground"
    ac_status := false
    power := 880
    voltage := 220
    current := 4
    energy_kwh := 5
    cost_taka := 85/2
    carbon_emissions := 2500
    device_type := none }

/-- Two-room registry used by the spec's aggregate scenario. -/
def scenarioRegistry : Registry :=
  [("Room101", room101Rec), ("Room102", room102Rec)]

/-- Add-device form input with an id ("Room101") that collides with the
scenario registry. -/
def dupForm : AddForm :=
  { device_id := "Room101"
    room_name := "Annex"
    floor := "2"
    device_type := "AC"
    initial_on := false
    power_rating := 1500 }

/-- Energy draw 5.004 kWh, a value `random.uniform(5, 25)` can produce. -/
def cexEnergy : ℚ := 1251/250

/-- Power draws all equal to 801 W. -/
def cexP : String → ℤ := fun _ => 801

/-- Energy draws all equal to `cexEnergy`. -/
def cexE : String → ℚ := fun _ => cexEnergy

/-- Status draws all `True`. -/
def cexS : String → Bool := fun _ => true

/-- The record generated for Room 101 under those draws. -/
def cexRecord : Record := mkGenRecord "Ground" "Room 101" 801 cexEnergy true

/-! ## Basic dictionary lemmas -/

lemma dictHasKey_eq_contains (m : Registry) (k : String) :
    dictHasKey m k = (dictKeys m).contains k := by
  induction m with
  | nil => rfl
  | cons kr t ih =>
    by_cases h : kr.1 = k
    · simp [dictHasKey, dictKeys, ih, List.contains_cons, h]
    · have hb : (kr.1 == k) = false := beq_eq_false_iff_ne.mpr h
      have hb' : (k == kr.1) = false := beq_eq_false_iff_ne.mpr (Ne.symm h)
      simp [dictHasKey, dictKeys, ih, List.contains_cons, hb, hb']

lemma dictKeys_dictInsert (m : Registry) (k : String) (v : Record) :
    dictKeys (dictInsert m k v) = insertKey (dictKeys m) k := by
  induction m with
  | nil => rfl
  | cons kr t ih =>
    by_cases h : kr.1 = k
    · simp [dictInsert, h, dictKeys, insertKey, List.contains_cons]
    · have hb : (kr.1 == k) = false := beq_eq_false_iff_ne.mpr h
      have hb' : (k == kr.1) = false := beq_eq_false_iff_ne.mpr (Ne.symm h)
      simp only [dictInsert, dictKeys, List.map_cons, hb, Bool.false_eq_true,
        if_false] at ih ⊢
      rw [ih]
      simp only [insertKey, List.contains_cons, hb', Bool.false_or]
      by_cases hc : (List.map Prod.fst t).contains k
      · rw [if_pos hc, if_pos hc]
      · rw [if_neg hc, if_neg hc, List.cons_append]

lemma insertKey_of_contains (ks : List String) (k : String)
    (h : ks.contains k = true) : insertKey ks k = ks := by
  rw [insertKey, if_pos h]

lemma dictFind_eq_none_of_not_mem (m : Registry) (k : String)
    (h : k ∉ dictKeys m) : dictFind m k = none := by
  induction m with
  | nil => rfl
  | cons kr t ih =>
    simp only [dictKeys, List.map_cons, List.mem_cons, not_or] at h
    have hb : (kr.1 == k) = false := beq_eq_false_iff_ne.mpr (Ne.symm h.1)
    simp only [dictFind, hb, Bool.false_eq_true, if_false]
    exact ih h.2

lemma dictFind_eq_none_iff (m : Registry) (k : String) :
    dictFind m k = none ↔ dictHasKey m k = false := by
  induction m with
  | nil => simp [dictFind, dictHasKey]
  | cons kr t ih =>
    by_cases h : kr.1 = k
    · simp [dictFind, dictHasKey, h]
    · have hb : (kr.1 == k) = false := beq_eq_false_iff_ne.mpr h
      simp [dictFind, dictHasKey, hb, ih]

lemma dictHasKey_of_find_some (m : Registry) (k : String) (r : Record)
    (h : dictFind m k = some r) : dictHasKey m k = true := by
  rcases hb : dictHasKey m k with _ | _
  · rw [(dictFind_eq_none_iff m k).mpr hb] at h; exact absurd h (by simp)
  · rfl

lemma dictFind_dictInsert_self (m : Registry) (k : String) (v : Record) :
    dictFind (dictInsert m k v) k = some v := by
  induction m with
  | nil => simp [dictInsert, dictFind]
  | cons kr t ih =>
    by_cases h : kr.1 = k
    · simp [dictInsert, h, dictFind]
    · have hb : (kr.1 == k) = false := beq_eq_false_iff_ne.mpr h
      simp [dictInsert, hb, dictFind, ih]

lemma mem_dictInsert (m : Registry) (k : String) (v : Record)
    (kr : String × Record) (h : kr ∈ dictInsert m k v) :
    kr ∈ m ∨ kr = (k, v) := by
  induction m with
  | nil => simp only [dictInsert, List.mem_singleton] at h; exact Or.inr h
  | cons hd t ih =>
    by_cases hk : hd.1 = k
    · rw [dictInsert, if_pos (by simpa using hk)] at h
      rcases List.mem_cons.mp h with h1 | h1
      · exact Or.inr h1
      · exact Or.inl (List.mem_cons_of_mem _ h1)
    · rw [dictInsert, if_neg (by simpa using hk)] at h
      rcases List.mem_cons.mp h with h1 | h1
      · exact Or.inl (h1 ▸ List.mem_cons_self _ _)
      · rcases ih h1 with h2 | h2
        · exact Or.inl (List.mem_cons_of_mem _ h2)
        · exact Or.inr h2

lemma mem_dictErase (m : Registry) (k : String) (kr : String × Record)
    (h : kr ∈ dictErase m k) : kr ∈ m := by
  induction m with
  | nil => rw [dictErase] at h; exact absurd h (List.not_mem_nil kr)
  | cons hd t ih =>
    by_cases hk : hd.1 = k
    · rw [dictErase, if_pos (by simpa using hk)] at h
      exact List.mem_cons_of_mem _ h
    · rw [dictErase, if_neg (by simpa using hk)] at h
      rcases List.mem_cons.mp h with h1 | h1
      · exact h1 ▸ List.mem_cons_self _ _
      · exact List.mem_cons_of_mem _ (ih h1)

lemma dictErase_eq_of_hasKey_false (m : Registry) (k : String)
    (h : dictHasKey m k = false) : dictErase m k = m := by
  induction m with
  | nil => rfl
  | cons hd t ih =>
    simp only [dictHasKey, Bool.or_eq_false_iff] at h
    rw [dictErase, if_neg (by simp [h.1]), ih h.2]

lemma dictFind_dictErase_self (m : Registry) (k : String)
    (h : (dictKeys m).Nodup) : dictFind (dictErase m k) k = none := by
  induction m with
  | nil => rfl
  | cons hd t ih =>
    simp only [dictKeys, List.map_cons, List.nodup_cons] at h
    by_cases hk : hd.1 = k
    · rw [dictErase, if_pos (by simpa using hk)]
      exact dictFind_eq_none_of_not_mem t k (hk ▸ h.1)
    · have hb : (hd.1 == k) = false := beq_eq_false_iff_ne.mpr hk
      rw [dictErase, if_neg (by simp [hk])]
      simp only [dictFind, hb, Bool.false_eq_true, if_false]
      exact ih h.2

/-! ## Generation lemmas -/

lemma dictKeys_genRooms (floor : String) (rooms : List String)
    (p : String → ℤ) (e : String → ℚ) (s : String → Bool) (acc : Registry) :
    dictKeys (genRooms floor rooms p e s acc) =
      rooms.foldl (fun a room => insertKey a (removeSpaces room))
        (dictKeys acc) := by
  induction rooms generalizing acc with
  | nil => rfl
  | cons r rs ih =>
    simp only [genRooms, List.foldl_cons] at ih ⊢
    rw [ih, dictKeys_dictInsert]

lemma dictKeys_genData_aux (bs : List (String × List String))
    (p : String → ℤ) (e : String → ℚ) (s : String → Bool) (acc : Registry) :
    dictKeys (bs.foldl (fun a fr => genRooms fr.1 fr.2 p e s a) acc) =
      bs.foldl
        (fun ks fr =>
          fr.2.foldl (fun a room => insertKey a (removeSpaces room)) ks)
        (dictKeys acc) := by
  induction bs generalizing acc with
  | nil => rfl
  | cons b bst ih =>
    simp only [List.foldl_cons]
    rw [ih, dictKeys_genRooms]

lemma dictKeys_genData (bs : List (String × List String))
    (p : String → ℤ) (e : String → ℚ) (s : String → Bool) :
    dictKeys (genData bs p e s) = genKeys bs :=
  dictKeys_genData_aux bs p e s []

lemma mem_genRooms (floor : String) (rooms : List String) (p : String → ℤ)
    (e : String → ℚ) (s : String → Bool) (acc : Registry)
    (kr : String × Record) (h : kr ∈ genRooms floor rooms p e s acc) :
    kr ∈ acc ∨ ∃ room ∈ rooms,
      kr = (removeSpaces room,
            mkGenRecord floor room (p room) (e room) (s room)) := by
  induction rooms generalizing acc with
  | nil => exact Or.inl h
  | cons r rs ih =>
    simp only [genRooms, List.foldl_cons] at h
    rcases ih _ h with h1 | ⟨room, hmem, heq⟩
    · rcases mem_dictInsert _ _ _ _ h1 with h2 | h2
      · exact Or.inl h2
      · exact Or.inr ⟨r, List.mem_cons_self _ _, h2⟩
    · exact Or.inr ⟨room, List.mem_cons_of_mem _ hmem, heq⟩

lemma mem_genData (bs : List (String × List String)) (p : String → ℤ)
    (e : String → ℚ) (s : String → Bool) (kr : String × Record)
    (h : kr ∈ genData bs p e s) :
    ∃ fr ∈ bs, ∃ room ∈ fr.2,
      kr = (removeSpaces room,
            mkGenRecord fr.1 room (p room) (e room) (s room)) := by
  suffices haux : ∀ acc, kr ∈ bs.foldl (fun a fr => genRooms fr.1 fr.2 p e s a) acc →
      kr ∈ acc ∨ ∃ fr ∈ bs, ∃ room ∈ fr.2,
        kr = (removeSpaces room,
              mkGenRecord fr.1 room (p room) (e room) (s room)) by
    rcases haux [] h with h1 | h1
    · exact absurd h1 (List.not_mem_nil kr)
    · exact h1
  clear h
  induction bs with
  | nil => intro acc h; exact Or.inl h
  | cons b bst ih =>
    intro acc h
    simp only [List.foldl_cons] at h
    rcases ih _ h with h1 | ⟨fr, hfr, room, hroom, heq⟩
    · rcases mem_genRooms _ _ _ _ _ _ _ h1 with h2 | ⟨room, hroom, heq⟩
      · exact Or.inl h2
      · exact Or.inr ⟨b, List.mem_cons_self _ _, room, hroom, heq⟩
    · exact Or.inr ⟨fr, List.mem_cons_of_mem _ hfr, room, hroom, heq⟩

/-! ## Erase and aggregate lemmas -/

lemma sum_dictErase (g : Record → ℚ) (m : Registry) (k : String) (r : Record)
    (hf : dictFind m k = some r) :
    (m.map (fun kr => g kr.2)).sum =
      ((dictErase m k).map (fun kr => g kr.2)).sum + g r := by
  induction m with
  | nil => exact absurd hf (by simp [dictFind])
  | cons hd t ih =>
    by_cases hk : hd.1 = k
    · rw [dictFind, if_pos (by simpa using hk)] at hf
      rw [dictErase, if_pos (by simpa using hk)]
      simp only [List.map_cons, List.sum_cons]
      rw [Option.some_inj.mp hf]
      ring
    · rw [dictFind, if_neg (by simpa using hk)] at hf
      rw [dictErase, if_neg (by simpa using hk)]
      simp only [List.map_cons, List.sum_cons, ih hf]
      ring

lemma length_dictErase (m : Registry) (k : String) (r : Record)
    (hf : dictFind m k = some r) :
    m.length = (dictErase m k).length + 1 := by
  induction m with
  | nil => exact absurd hf (by simp [dictFind])
  | cons hd t ih =>
    by_cases hk : hd.1 = k
    · rw [dictErase, if_pos (by simpa using hk)]
      simp
    · rw [dictFind, if_neg (by simpa using hk)] at hf
      rw [dictErase, if_neg (by simpa using hk)]
      simp only [List.length_cons, ih hf]

lemma active_dictErase (m : Registry) (k : String) (r : Record)
    (hf : dictFind m k = some r) :
    (m.filter (fun kr => kr.2.ac_status)).length =
      ((dictErase m k).filter (fun kr => kr.2.ac_status)).length +
        (if r.ac_status then 1 else 0) := by
  induction m with
  | nil => exact absurd hf (by simp [dictFind])
  | cons hd t ih =>
    by_cases hk : hd.1 = k
    · rw [dictFind, if_pos (by simpa using hk)] at hf
      rw [dictErase, if_pos (by simpa using hk)]
      rw [← Option.some_inj.mp hf]
      by_cases hs : hd.2.ac_status
      · simp [List.filter_cons, hs]
      · simp [List.filter_cons, hs]
    · rw [dictFind, if_neg (by simpa using hk)] at hf
      rw [dictErase, if_neg (by simpa using hk)]
      by_cases hs : hd.2.ac_status
      · simp only [List.filter_cons, hs, if_true, List.length_cons, ih hf]
        omega
      · simp [List.filter_cons, hs, ih hf]

/-! ## Status-update lemmas -/

lemma statusEntry_fst (id : String) (b : Bool) (kr : String × Record) :
    (statusEntry id b kr).1 = kr.1 := by
  by_cases h : kr.1 == id
  · rw [statusEntry, if_pos h]
  · rw [statusEntry, if_neg h]

lemma statusEntry_of_eq (id : String) (b : Bool) (kr : String × Record)
    (h : (kr.1 == id) = true) :
    statusEntry id b kr = (kr.1, { kr.2 with ac_status := b }) := by
  rw [statusEntry, if_pos h]

lemma statusEntry_of_ne (id : String) (b : Bool) (kr : String × Record)
    (h : (kr.1 == id) = false) : statusEntry id b kr = kr := by
  rw [statusEntry, if_neg (by simp [h])]

lemma statusEntry_statusEntry (id : String) (b : Bool) (kr : String × Record) :
    statusEntry id b (statusEntry id b kr) = statusEntry id b kr := by
  by_cases h : (kr.1 == id) = true
  · rw [statusEntry_of_eq id b kr h]
    exact statusEntry_of_eq id b _ h
  · have h' : (kr.1 == id) = false := by rwa [← Bool.not_eq_true]
    rw [statusEntry_of_ne id b kr h', statusEntry_of_ne id b kr h']

lemma dictKeys_map_statusEntry (m : Registry) (id : String) (b : Bool) :
    dictKeys (m.map (statusEntry id b)) = dictKeys m := by
  simp only [dictKeys, List.map_map]
  exact List.map_congr_left fun kr _ => statusEntry_fst id b kr

lemma dictHasKey_map_statusEntry (m : Registry) (id : String) (b : Bool)
    (k : String) : dictHasKey (m.map (statusEntry id b)) k = dictHasKey m k := by
  rw [dictHasKey_eq_contains, dictHasKey_eq_contains, dictKeys_map_statusEntry]

lemma dictFind_map_statusEntry_ne (m : Registry) (id : String) (b : Bool)
    (k : String) (hk : k ≠ id) :
    dictFind (m.map (statusEntry id b)) k = dictFind m k := by
  induction m with
  | nil => rfl
  | cons hd t ih =>
    rw [List.map_cons]
    by_cases h2 : (hd.1 == id) = true
    · have hne : (hd.1 == k) = false :=
        beq_eq_false_iff_ne.mpr (fun he => hk ((he ▸ eq_of_beq h2 : k = id)))
      rw [statusEntry_of_eq id b hd h2, dictFind, dictFind,
        if_neg (by simp [hne]), if_neg (by simp [hne])]
      exact ih
    · have h2' : (hd.1 == id) = false := by rwa [← Bool.not_eq_true]
      rw [statusEntry_of_ne id b hd h2', dictFind, dictFind]
      by_cases h : (hd.1 == k) = true
      · rw [if_pos h, if_pos h]
      · rw [if_neg h, if_neg h]
        exact ih

lemma dictFind_map_statusEntry_self (m : Registry) (id : String) (b : Bool)
    (r : Record) (hf : dictFind m id = some r) :
    dictFind (m.map (statusEntry id b)) id =
      some { r with ac_status := b } := by
  induction m with
  | nil => exact absurd hf (by simp [dictFind])
  | cons hd t ih =>
    rw [List.map_cons]
    by_cases h : (hd.1 == id) = true
    · rw [dictFind, if_pos h] at hf
      rw [statusEntry_of_eq id b hd h, dictFind, if_pos h,
        Option.some_inj.mp hf]
    · have h' : (hd.1 == id) = false := by rwa [← Bool.not_eq_true]
      rw [dictFind, if_neg h] at hf
      rw [statusEntry_of_ne id b hd h', dictFind, if_neg h]
      exact ih hf

/-! ## Claim theorems -/

/-- C4: `set_status` is idempotent: for every registry state, id and boolean,
applying `update_device_status` to the registry it just produced returns the
same registry (and the same result flag) as the single call. -/
theorem updateDeviceStatus_idempotent (m : Registry) (id : String) (b : Bool) :
    updateDeviceStatus (updateDeviceStatus m id b).1 id b =
      updateDeviceStatus m id b := by
  by_cases h : dictHasKey m id = true
  · have h1 : (updateDeviceStatus m id b).1 = m.map (statusEntry id b) := by
      rw [updateDeviceStatus, if_pos h]
    have h2 : dictHasKey (m.map (statusEntry id b)) id = true := by
      rw [dictHasKey_map_statusEntry]; exact h
    rw [h1, updateDeviceStatus, if_pos h2, updateDeviceStatus, if_pos h]
    refine congrArg (fun l => (l, true)) ?_
    rw [List.map_map]
    exact List.map_congr_left fun kr _ => statusEntry_statusEntry id b kr
  · have e : updateDeviceStatus m id b = (m, false) := by
      rw [updateDeviceStatus, if_neg h]
    rw [e]
    exact e

/-- C5: `set_status` on an absent id returns `false` and leaves the registry
completely unchanged (a no-op, no error). -/
theorem updateDeviceStatus_absent (m : Registry) (id : String) (b : Bool)
    (h : dictFind m id = none) :
    updateDeviceStatus m id b = (m, false) := by
  rw [updateDeviceStatus,
    if_neg (by simp [(dictFind_eq_none_iff m id).mp h])]

/-- Witness for C5: the spec scenario `set_status("NoSuchId", true)` on the
two-room registry is a rejected no-op. -/
theorem updateDeviceStatus_absent_witness :
    dictFind scenarioRegistry "NoSuchId" = none ∧
    updateDeviceStatus scenarioRegistry "NoSuchId" true =
      (scenarioRegistry, false) :=
  ⟨by decide,
   updateDeviceStatus_absent scenarioRegistry "NoSuchId" true (by decide)⟩

/-- C7: `add` with an empty id or an empty room name is rejected: the handler
takes the error branch, inserts nothing, and the registry (hence its size)
is unchanged. -/
theorem addDevice_rejects_empty (m : Registry) (f : AddForm)
    (h : f.device_id = "" ∨ f.room_name = "") :
    addDevice m f = (m, false) ∧ (addDevice m f).1.length = m.length := by
  have e : addDevice m f = (m, false) := by
    rcases h with h | h
    · rw [addDevice, if_neg (by simp [h])]
    · rw [addDevice, if_neg (by simp [h])]
  exact ⟨e, by rw [e]⟩

/-- Witness for C7: the spec scenario `add({id:"", display_name:"X", ...})` is
rejected and the scenario registry keeps its two records. -/
theorem addDevice_rejects_empty_witness :
    (addDevice scenarioRegistry
        { device_id := "", room_name := "X", floor := "Ground",
          device_type := "AC", initial_on := true, power_rating := 1500 } =
      (scenarioRegistry, false)) ∧
    (addDevice scenarioRegistry
        { device_id := "", room_name := "X", floor := "Ground",
          device_type := "AC", initial_on := true, power_rating := 1500 }).1.length =
      scenarioRegistry.length :=
  addDevice_rejects_empty scenarioRegistry
    { device_id := "", room_name := "X", floor := "Ground",
      device_type := "AC", initial_on := true, power_rating := 1500 }
    (Or.inl rfl)

/-- Counterexample to C1: adding a well-filled form whose id "Room101" is
already a key of the scenario registry does not reject — the handler reports
success and the registry changes (the old record is overwritten). -/
theorem addDevice_duplicate_cex :
    dictHasKey scenarioRegistry "Room101" = true ∧
    (addDevice scenarioRegistry dupForm).2 = true ∧
    (addDevice scenarioRegistry dupForm).1 ≠ scenarioRegistry := by
  decide

/-- C1 amended: `add` with an id that already exists in the registry and a
non-empty id and room name succeeds and overwrites: the handler reports
success, the stored record at that id becomes the new device, and the key
set (hence the registry size) is unchanged. -/
theorem addDevice_duplicate_overwrites (m : Registry) (f : AddForm)
    (h1 : f.device_id ≠ "") (h2 : f.room_name ≠ "")
    (h3 : dictHasKey m f.device_id = true) :
    (addDevice m f).2 = true ∧
    (addDevice m f).1 = dictInsert m f.device_id (mkNewDevice f) ∧
    dictFind (addDevice m f).1 f.device_id = some (mkNewDevice f) ∧
    dictKeys (addDevice m f).1 = dictKeys m := by
  have e : addDevice m f = (dictInsert m f.device_id (mkNewDevice f), true) := by
    rw [addDevice, if_pos ⟨h1, h2⟩]
  refine ⟨by rw [e], by rw [e], ?_, ?_⟩
  · rw [e]
    exact dictFind_dictInsert_self m f.device_id (mkNewDevice f)
  · rw [e, dictKeys_dictInsert]
    exact insertKey_of_contains _ _ (by rw [← dictHasKey_eq_contains]; exact h3)

/-- Witness for the amended C1 on the scenario registry and the colliding
form. -/
theorem addDevice_duplicate_overwrites_witness :
    (addDevice scenarioRegistry dupForm).2 = true ∧
    (addDevice scenarioRegistry dupForm).1 =
      dictInsert scenarioRegistry "Room101" (mkNewDevice dupForm) ∧
    dictFind (addDevice scenarioRegistry dupForm).1 "Room101" =
      some (mkNewDevice dupForm) ∧
    dictKeys (addDevice scenarioRegistry dupForm).1 =
      dictKeys scenarioRegistry :=
  addDevice_duplicate_overwrites scenarioRegistry dupForm
    (by decide) (by decide) (by decide)


/-- C8: on the spec's seeded registry (Room101 at 10 kWh and on, Room102 at
5 kWh and off, derived fields consistent) the overview metrics are
total 15 kWh, cost 127.5, carbon 7500, 1 of 2 devices active; and the
metrics are recomputed from the current state: after switching Room102 on
the same computation reports 2 active devices, and after deleting Room101 it
reports only Room102's figures. -/
theorem aggregate_scenario :
    aggregate scenarioRegistry =
      { total_energy_kwh := 15, total_cost := 255/2,
        total_carbon_grams := 7500, active_count := 1, total_count := 2 } ∧
    aggregate (updateDeviceStatus scenarioRegistry "Room102" true).1 =
      { total_energy_kwh := 15, total_cost := 255/2,
        total_carbon_grams := 7500, active_count := 2, total_count := 2 } ∧
    aggregate (deleteDevice scenarioRegistry "Room101") =
      { total_energy_kwh := 5, total_cost := 85/2,
        total_carbon_grams := 2500, active_count := 0, total_count := 1 } := by
  refine ⟨?_, ?_, ?_⟩
  · simp only [aggregate, scenarioRegistry, room101Rec, room102Rec,
      List.map_cons, List.map_nil, List.sum_cons, List.sum_nil,
      List.filter, List.length]
    norm_num
  · have e : (updateDeviceStatus scenarioRegistry "Room102" true).1 =
        [("Room101", room101Rec),
         ("Room102", { room102Rec with ac_status := true })] := by
      simp [updateDeviceStatus, dictHasKey, statusEntry, scenarioRegistry,
        room101Rec, room102Rec]
    rw [e]
    simp only [aggregate, room101Rec, room102Rec,
      List.map_cons, List.map_nil, List.sum_cons, List.sum_nil,
      List.filter, List.length]
    norm_num
  · have e : deleteDevice scenarioRegistry "Room101" =
        [("Room102", room102Rec)] := by
      simp [deleteDevice, dictHasKey, dictErase, scenarioRegistry]
    rw [e]
    simp only [aggregate, room102Rec,
      List.map_cons, List.map_nil, List.sum_cons, List.sum_nil,
      List.filter, List.length]
    norm_num

/-- C6: `delete` removes the record when the id is present and is a no-op
otherwise; afterwards `get` on that id reports not-found, and when a record
was present every aggregate total and count of the original registry equals
the post-delete value plus exactly that record's contribution. -/
theorem deleteDevice_spec (m : Registry) (id : String)
    (h : (dictKeys m).Nodup) :
    dictFind (deleteDevice m id) id = none ∧
    (dictHasKey m id = false → deleteDevice m id = m) ∧
    ∀ r, dictFind m id = some r →
      deleteDevice m id = dictErase m id ∧
      (aggregate m).total_energy_kwh =
        (aggregate (deleteDevice m id)).total_energy_kwh + r.energy_kwh ∧
      (aggregate m).total_cost =
        (aggregate (deleteDevice m id)).total_cost + r.cost_taka ∧
      (aggregate m).total_carbon_grams =
        (aggregate (deleteDevice m id)).total_carbon_grams +
          r.carbon_emissions ∧
      (aggregate m).active_count =
        (aggregate (deleteDevice m id)).active_count +
          (if r.ac_status then 1 else 0) ∧
      (aggregate m).total_count =
        (aggregate (deleteDevice m id)).total_count + 1 := by
  refine ⟨?_, ?_, ?_⟩
  · by_cases hk : dictHasKey m id = true
    · rw [deleteDevice, if_pos hk]
      exact dictFind_dictErase_self m id h
    · rw [deleteDevice, if_neg hk]
      exact (dictFind_eq_none_iff m id).mpr (by rwa [← Bool.not_eq_true])
  · intro hk
    rw [deleteDevice, if_neg (by simp [hk])]
  · intro r hf
    have hk : dictHasKey m id = true := dictHasKey_of_find_some m id r hf
    have hd : deleteDevice m id = dictErase m id := by
      rw [deleteDevice, if_pos hk]
    refine ⟨hd, ?_, ?_, ?_, ?_, ?_⟩
    · rw [hd]
      exact sum_dictErase (fun r => r.energy_kwh) m id r hf
    · rw [hd]
      exact sum_dictErase (fun r => r.cost_taka) m id r hf
    · rw [hd]
      exact sum_dictErase (fun r => r.carbon_emissions) m id r hf
    · rw [hd]
      exact active_dictErase m id r hf
    · rw [hd]
      exact length_dictErase m id r hf

/-- Witness for C6: deleting Room101 from the scenario registry leaves only
Room102, with Room101's contribution excluded from the energy total and the
record count. -/
theorem deleteDevice_spec_witness :
    dictFind (deleteDevice scenarioRegistry "Room101") "Room101" = none ∧
    deleteDevice scenarioRegistry "Room101" =
      dictErase scenarioRegistry "Room101" ∧
    (aggregate scenarioRegistry).total_energy_kwh =
      (aggregate (deleteDevice scenarioRegistry "Room101")).total_energy_kwh +
        room101Rec.energy_kwh ∧
    (aggregate scenarioRegistry).total_count =
      (aggregate (deleteDevice scenarioRegistry "Room101")).total_count + 1 := by
  have h := deleteDevice_spec scenarioRegistry "Room101" (by decide)
  have h3 := h.2.2 room101Rec (by decide)
  exact ⟨h.1, h3.1, h3.2.1, h3.2.2.2.2.2⟩

/-- C10 (frame property): when the id is present, `set_status` keeps the key
sequence, leaves every other id's record untouched, and replaces the target
id's record by the same record with only `ac_status` changed. -/
theorem updateDeviceStatus_frame (m : Registry) (id : String) (b : Bool)
    (h : dictHasKey m id = true) :
    dictKeys (updateDeviceStatus m id b).1 = dictKeys m ∧
    (∀ k, k ≠ id →
      dictFind (updateDeviceStatus m id b).1 k = dictFind m k) ∧
    (∀ r, dictFind m id = some r →
      dictFind (updateDeviceStatus m id b).1 id =
        some { r with ac_status := b }) := by
  have e : (updateDeviceStatus m id b).1 = m.map (statusEntry id b) := by
    rw [updateDeviceStatus, if_pos h]
  rw [e]
  exact ⟨dictKeys_map_statusEntry m id b,
    fun k hk => dictFind_map_statusEntry_ne m id b k hk,
    fun r hr => dictFind_map_statusEntry_self m id b r hr⟩

/-- Witness for C10: switching Room101 off in the scenario registry keeps the
keys, leaves Room102 untouched, and only flips Room101's status field. -/
theorem updateDeviceStatus_frame_witness :
    dictKeys (updateDeviceStatus scenarioRegistry "Room101" false).1 =
      dictKeys scenarioRegistry ∧
    dictFind (updateDeviceStatus scenarioRegistry "Room101" false).1 "Room102" =
      dictFind scenarioRegistry "Room102" ∧
    dictFind (updateDeviceStatus scenarioRegistry "Room101" false).1 "Room101" =
      some { room101Rec with ac_status := false } := by
  have h := updateDeviceStatus_frame scenarioRegistry "Room101" false (by decide)
  exact ⟨h.1, h.2.1 "Room102" (by decide), h.2.2 room101Rec (by decide)⟩

/-- C9 (implicit invariant): every record's key equals its stored `room_id`
field, in every generated registry, and the invariant is preserved by
`set_status`, `add` and `delete`. -/
theorem keyInv_preserved (p : String → ℤ) (e : String → ℚ) (s : String → Bool)
    (m : Registry) (id : String) (b : Bool) (f : AddForm) :
    KeyInv (generateSyntheticData p e s) ∧
    (KeyInv m → KeyInv (updateDeviceStatus m id b).1) ∧
    (KeyInv m → KeyInv (addDevice m f).1) ∧
    (KeyInv m → KeyInv (deleteDevice m id)) := by
  refine ⟨?_, ?_, ?_, ?_⟩
  · intro kr hkr
    obtain ⟨fr, _, room, _, heq⟩ :=
      mem_genData getBuildingStructure p e s kr hkr
    rw [heq]
    rfl
  · intro hm kr hkr
    by_cases h : dictHasKey m id = true
    · rw [updateDeviceStatus, if_pos h] at hkr
      obtain ⟨kr', hkr', rfl⟩ := List.mem_map.mp hkr
      by_cases h2 : (kr'.1 == id) = true
      · rw [statusEntry_of_eq id b kr' h2]
        exact hm kr' hkr'
      · rw [statusEntry_of_ne id b kr' (by rwa [← Bool.not_eq_true])]
        exact hm kr' hkr'
    · rw [updateDeviceStatus, if_neg h] at hkr
      exact hm kr hkr
  · intro hm kr hkr
    by_cases h : f.device_id ≠ "" ∧ f.room_name ≠ ""
    · rw [addDevice, if_pos h] at hkr
      rcases mem_dictInsert m f.device_id (mkNewDevice f) kr hkr with h1 | h1
      · exact hm kr h1
      · rw [h1]
        rfl
    · rw [addDevice, if_neg h] at hkr
      exact hm kr hkr
  · intro hm kr hkr
    by_cases h : dictHasKey m id = true
    · rw [deleteDevice, if_pos h] at hkr
      exact hm kr (mem_dictErase m id kr hkr)
    · rw [deleteDevice, if_neg h] at hkr
      exact hm kr hkr

/-- Witness for C9: the invariant holds on the scenario registry after a
status toggle, an add and a delete. -/
theorem keyInv_preserved_witness :
    KeyInv (updateDeviceStatus scenarioRegistry "Room101" false).1 ∧
    KeyInv (addDevice scenarioRegistry dupForm).1 ∧
    KeyInv (deleteDevice scenarioRegistry "Room101") := by
  have h := keyInv_preserved (fun _ => 900) (fun _ => 7) (fun _ => true)
    scenarioRegistry "Room101" false dupForm
  exact ⟨h.2.1 (by decide), h.2.2.1 (by decide), h.2.2.2 (by decide)⟩

/-- C3: for every choice of random draws, `generate_synthetic_data` produces
exactly one record per room of the building structure, keyed (in loop order)
by the room name with whitespace removed, and these ids are pairwise
distinct. -/
theorem generateSyntheticData_one_record_per_room (p : String → ℤ)
    (e : String → ℚ) (s : String → Bool) :
    dictKeys (generateSyntheticData p e s) =
      (allRooms getBuildingStructure).map removeSpaces ∧
    (dictKeys (generateSyntheticData p e s)).Nodup ∧
    (generateSyntheticData p e s).length =
      (allRooms getBuildingStructure).length := by
  have hk : dictKeys (generateSyntheticData p e s) =
      genKeys getBuildingStructure :=
    dictKeys_genData getBuildingStructure p e s
  have hlen : (generateSyntheticData p e s).length =
      (dictKeys (generateSyntheticData p e s)).length := by
    rw [dictKeys, List.length_map]
  refine ⟨?_, ?_, ?_⟩
  · rw [hk]
    decide
  · rw [hk]
    decide
  · rw [hlen, hk]
    decide

/-! ## Positive membership lemmas for generation -/

lemma mem_dictInsert_self (m : Registry) (k : String) (v : Record) :
    (k, v) ∈ dictInsert m k v := by
  induction m with
  | nil => simp [dictInsert]
  | cons hd t ih =>
    by_cases h : (hd.1 == k) = true
    · rw [dictInsert, if_pos h]
      exact List.mem_cons_self _ _
    · rw [dictInsert, if_neg h]
      exact List.mem_cons_of_mem _ ih

lemma mem_dictInsert_of_mem (m : Registry) (k : String) (v : Record)
    (kr : String × Record) (hne : kr.1 ≠ k) (h : kr ∈ m) :
    kr ∈ dictInsert m k v := by
  induction m with
  | nil => exact absurd h (List.not_mem_nil kr)
  | cons hd t ih =>
    rcases List.mem_cons.mp h with h1 | h1
    · by_cases hk : (hd.1 == k) = true
      · exact absurd (h1 ▸ eq_of_beq hk) hne
      · rw [dictInsert, if_neg hk]
        exact h1 ▸ List.mem_cons_self _ _
    · by_cases hk : (hd.1 == k) = true
      · rw [dictInsert, if_pos hk]
        exact List.mem_cons_of_mem _ h1
      · rw [dictInsert, if_neg hk]
        exact List.mem_cons_of_mem _ (ih h1)

lemma mem_genRooms_of_mem (floor : String) (rooms : List String)
    (p : String → ℤ) (e : String → ℚ) (s : String → Bool) (acc : Registry)
    (kr : String × Record) (hne : ∀ room ∈ rooms, kr.1 ≠ removeSpaces room)
    (h : kr ∈ acc) : kr ∈ genRooms floor rooms p e s acc := by
  induction rooms generalizing acc with
  | nil => exact h
  | cons r rs ih =>
    simp only [genRooms, List.foldl_cons]
    exact ih _ (fun room hroom => hne room (List.mem_cons_of_mem _ hroom))
      (mem_dictInsert_of_mem acc _ _ kr (hne r (List.mem_cons_self _ _)) h)

lemma genRooms_cons (floor room : String) (rooms : List String)
    (p : String → ℤ) (e : String → ℚ) (s : String → Bool) (acc : Registry) :
    genRooms floor (room :: rooms) p e s acc =
      genRooms floor rooms p e s
        (dictInsert acc (removeSpaces room)
          (mkGenRecord floor room (p room) (e room) (s room))) := rfl

lemma mem_genData_foldl_of_mem (bs : List (String × List String))
    (p : String → ℤ) (e : String → ℚ) (s : String → Bool) (acc : Registry)
    (kr : String × Record)
    (hne : ∀ fr ∈ bs, ∀ room ∈ fr.2, kr.1 ≠ removeSpaces room)
    (h : kr ∈ acc) :
    kr ∈ bs.foldl (fun a fr => genRooms fr.1 fr.2 p e s a) acc := by
  induction bs generalizing acc with
  | nil => exact h
  | cons b bst ih =>
    rw [List.foldl_cons]
    exact ih _
      (fun fr hfr room hroom => hne fr (List.mem_cons_of_mem _ hfr) room hroom)
      (mem_genRooms_of_mem b.1 b.2 p e s acc kr
        (fun room hroom => hne b (List.mem_cons_self _ _) room hroom) h)

lemma mem_generate_room101 (p : String → ℤ) (e : String → ℚ)
    (s : String → Bool) :
    ("Room101",
     mkGenRecord "Ground" "Room 101" (p "Room 101") (e "Room 101")
       (s "Room 101")) ∈ generateSyntheticData p e s := by
  have h1 : ∀ fr ∈ [("1", ["Room 201", "Room 202", "Room 203", "Room 204"]),
      ("2", ["Room 301", "Room 302", "Room 303"]),
      ("3", ["Room 401", "Room 402", "Room 403", "Room 404"]),
      ("4", ["Room 501", "Room 502"]),
      ("5", ["Room 601", "Room 602", "Room 603"])],
      ∀ room ∈ fr.2, ("Room101" : String) ≠ removeSpaces room := by decide
  have h2 : ∀ room ∈ ["Room 102", "Room 103"],
      ("Room101" : String) ≠ removeSpaces room := by decide
  rw [generateSyntheticData, genData, getBuildingStructure, List.foldl_cons]
  refine mem_genData_foldl_of_mem _ p e s _
    ("Room101",
     mkGenRecord "Ground" "Room 101" (p "Room 101") (e "Room 101")
       (s "Room 101")) h1 ?_
  rw [genRooms_cons]
  refine mem_genRooms_of_mem _ _ p e s _
    ("Room101",
     mkGenRecord "Ground" "Room 101" (p "Room 101") (e "Room 101")
       (s "Room 101")) h2 ?_
  exact mem_dictInsert_self [] _ _

lemma dictFind_eq_of_mem_nodup (m : Registry) (k : String) (v : Record)
    (hnd : (dictKeys m).Nodup) (hm : (k, v) ∈ m) : dictFind m k = some v := by
  induction m with
  | nil => exact absurd hm (List.not_mem_nil _)
  | cons hd t ih =>
    simp only [dictKeys, List.map_cons, List.nodup_cons] at hnd
    rcases List.mem_cons.mp hm with h1 | h1
    · rw [← h1, dictFind, if_pos (by simp)]
    · have hk : k ∈ List.map Prod.fst t := List.mem_map.mpr ⟨(k, v), h1, rfl⟩
      have hne : (hd.1 == k) = false :=
        beq_eq_false_iff_ne.mpr (fun he => hnd.1 (he ▸ hk))
      rw [dictFind, if_neg (by simp [hne])]
      exact ih hnd.2 h1

lemma round2_cexEnergy : round2 cexEnergy = 5 := by
  norm_num [round2, cexEnergy]

lemma round2_cexCost : round2 (cexEnergy * 8.5) = 4253/100 := by
  norm_num [round2, cexEnergy]

/-- Counterexample to C2: under the admissible draws power 801 W and energy
5.004 kWh, the generated Room101 record stores energy_kwh = 5.00 and
cost_taka = 42.53 (both rounded to 2 decimals by the code), and
42.53 ≠ 5.00 × 8.5 = 42.5 — the stored cost is not the stored energy times
the tariff. -/
theorem generateSyntheticData_cost_cex :
    dictFind (generateSyntheticData cexP cexE cexS) "Room101" =
      some cexRecord ∧
    cexRecord.energy_kwh = 5 ∧
    cexRecord.cost_taka ≠ cexRecord.energy_kwh * 8.5 := by
  refine ⟨?_, ?_, ?_⟩
  · apply dictFind_eq_of_mem_nodup
    · rw [generateSyntheticData, dictKeys_genData]
      decide
    · exact mem_generate_room101 cexP cexE cexS
  · rw [show cexRecord.energy_kwh = round2 cexEnergy from rfl, round2_cexEnergy]
  · rw [show cexRecord.cost_taka = round2 (cexEnergy * 8.5) from rfl,
      show cexRecord.energy_kwh = round2 cexEnergy from rfl,
      round2_cexEnergy, round2_cexCost]
    norm_num

/-- C2 amended: every record produced by initial generation stores the
2-decimal roundings of the derived quantities computed from the raw draws:
`current = round2(power / voltage)`, `energy_kwh = round2(raw_energy)`,
`cost_taka = round2(raw_energy × 8.5)`, `carbon = round2(raw_energy × 500)`,
with `voltage = 220` and `power ≥ 0` whenever the power draws are
nonnegative.  The exact identities of the claim hold for the pre-rounding
values, not for the stored (rounded) fields. -/
theorem generateSyntheticData_derived_fields (p : String → ℤ) (e : String → ℚ)
    (s : String → Bool) (hp : ∀ room, 0 ≤ p room) :
    ∀ kr ∈ generateSyntheticData p e s,
      0 ≤ kr.2.power ∧
      kr.2.voltage = 220 ∧
      kr.2.current = round2 (kr.2.power / kr.2.voltage) ∧
      kr.2.energy_kwh = round2 (e kr.2.room_name) ∧
      kr.2.cost_taka = round2 (e kr.2.room_name * 8.5) ∧
      kr.2.carbon_emissions = round2 (e kr.2.room_name * 500) := by
  intro kr hkr
  obtain ⟨fr, _, room, _, rfl⟩ :=
    mem_genData getBuildingStructure p e s kr hkr
  refine ⟨?_, rfl, rfl, rfl, rfl, rfl⟩
  show (0 : ℚ) ≤ ((p room : ℤ) : ℚ)
  exact_mod_cast hp room

/-- Witness for the amended C2: with constant draws 900 W, 7 kWh and status
on, the generated Room101 record satisfies the rounded derivation
equations. -/
theorem generateSyntheticData_derived_fields_witness :
    0 ≤ (mkGenRecord "Ground" "Room 101" 900 7 true).power ∧
    (mkGenRecord "Ground" "Room 101" 900 7 true).voltage = 220 ∧
    (mkGenRecord "Ground" "Room 101" 900 7 true).current =
      round2 ((mkGenRecord "Ground" "Room 101" 900 7 true).power /
        (mkGenRecord "Ground" "Room 101" 900 7 true).voltage) ∧
    (mkGenRecord "Ground" "Room 101" 900 7 true).energy_kwh = round2 7 ∧
    (mkGenRecord "Ground" "Room 101" 900 7 true).cost_taka =
      round2 (7 * 8.5) ∧
    (mkGenRecord "Ground" "Room 101" 900 7 true).carbon_emissions =
      round2 (7 * 500) :=
  generateSyntheticData_derived_fields (fun _ => 900) (fun _ => 7)
    (fun _ => true) (fun _ => by norm_num)
    ("Room101", mkGenRecord "Ground" "Room 101" 900 7 true)
    (mem_generate_room101 (fun _ => 900) (fun _ => 7) (fun _ => true))
